import Mathlib

/-!
Verification of the Smart-Resume-Parser backend (src/backend/main.py)
against its natural-language specification.

The Python program is shallowly embedded: values produced by the external
libraries (PyPDF2, python-docx, UTF-8 decoding, the Gemini API client, the
JSON parser, the SQLAlchemy commit) are supplied as oracles, while every
line of repository code - the extension dispatch of parse_resume_file, the
response post-processing of get_analysis, the try/except structure of both
functions, and the validation plus per-file loop of analyze_resumes - is
translated directly from the source.
-/

/-- A Python value as produced by json.loads: null, booleans, integers,
strings, arrays and string-keyed objects.  Floats are not needed by any
claim and are omitted. -/
inductive PyVal where
  | null
  | bool (b : Bool)
  | int (n : Int)
  | str (s : String)
  | arr (xs : List PyVal)
  | dict (entries : List (String × PyVal))

/-- Python str.startswith on character lists (kernel-reducible, unlike the
builtin String.startsWith). -/
def pyStartsWith (s p : String) : Bool :=
  p.data.isPrefixOf s.data

/-- Python str.endswith on character lists. -/
def pyEndsWith (s p : String) : Bool :=
  p.data.reverse.isPrefixOf s.data.reverse

/-- Python slicing s[n:] by characters. -/
def pyDropChars (s : String) (n : Nat) : String :=
  ⟨s.data.drop n⟩

/-- Python slicing s[:-n] by characters. -/
def pyDropRightChars (s : String) (n : Nat) : String :=
  ⟨s.data.take (s.data.length - n)⟩

/-- Python str.strip(): remove leading and trailing whitespace. -/
def pyStrip (s : String) : String :=
  ⟨((s.data.dropWhile Char.isWhitespace).reverse.dropWhile Char.isWhitespace).reverse⟩

/-- Python str.lower(). -/
def pyLower (s : String) : String :=
  ⟨s.data.map Char.toLower⟩

/-- Python dict lookup on the entry list of a parsed JSON object. -/
def pyLookup (key : String) : List (String × PyVal) → Option PyVal
  | [] => none
  | (k, v) :: rest => if k = key then some v else pyLookup key rest

/-- A Python exception as raised by the code in main.py:
fastapi.HTTPException (carrying a status code and a detail string),
json.JSONDecodeError (carrying the parser message), or any other
exception (carrying its message). -/
inductive PyExc where
  | httpExc (status : Nat) (detail : String)
  | jsonDecodeError (msg : String)
  | generic (msg : String)
deriving DecidableEq

/-- Python str(e) for the exceptions above.  starlette's HTTPException
prints as "status: detail"; JSONDecodeError and plain exceptions print
their message. -/
def pyStr : PyExc → String
  | .httpExc st d => toString st ++ ": " ++ d
  | .jsonDecodeError m => m
  | .generic m => m

/-- Outcome of the call model.generate_content(prompt) together with the
response.text attribute (main.py line 176): either the call raised, or it
returned a response whose text is absent (None) or a string. -/
inductive ApiResponse where
  | raised (msg : String)
  | ok (text : Option String)

/-- An uploaded file as the handler sees it: its declared name, and the
outcome each external parser would give on its bytes.
asPdf models PyPDF2.PdfReader + per-page extract_text (a list of page
texts, or the exception message), asDocx models docx.Document paragraph
texts, asTxt models content.decode(utf-8). -/
structure PyFile where
  filename : String
  asPdf : Except String (List String)
  asDocx : Except String (List String)
  asTxt : Except String String

/-- One row of the resume_analyses table (main.py lines 57-76); id and
created_at are assigned by the store and carry no claim content. -/
structure Row where
  filename : String
  job_description : String
  score : PyVal
  justification : PyVal

/-- One entry of the results list returned to the caller
(main.py lines 274-278). -/
structure ResultEntry where
  filename : String
  score : PyVal
  justification : PyVal

/-- The external environment of one request: the JSON parser (json.loads,
returning a value or the JSONDecodeError message), the Gemini call (as a
function of the extracted resume text and the job description), and the
database commit (none = committed, some msg = the commit raised msg). -/
structure Env where
  jsonParse : String → Except String PyVal
  api : String → String → ApiResponse
  commit : Row → Option String

/-- parse_resume_file (main.py lines 91-134): dispatch on the file name's
extension, case-sensitively, in the order .pdf, .docx, .txt; concatenate
page or paragraph texts each followed by a newline; decode txt bytes as
UTF-8; raise HTTPException(400, "Unsupported file type: name") otherwise.
Library failures surface as the library's exception. -/
def parse_resume_file (f : PyFile) : Except PyExc String :=
  if pyEndsWith f.filename ".pdf" then
    match f.asPdf with
    | .error e => .error (.generic e)
    | .ok pages => .ok (pages.foldl (fun text p => text ++ p ++ "\n") "")
  else if pyEndsWith f.filename ".docx" then
    match f.asDocx with
    | .error e => .error (.generic e)
    | .ok paras => .ok (paras.foldl (fun text p => text ++ p ++ "\n") "")
  else if pyEndsWith f.filename ".txt" then
    match f.asTxt with
    | .error e => .error (.generic e)
    | .ok s => .ok s
  else
    .error (.httpExc 400 ("Unsupported file type: " ++ f.filename))

/-- The markdown-fence stripping of get_analysis (main.py lines 186-194),
applied to the already-stripped response text: drop a leading 7-character
marker if present; then, independently, drop a leading 3-character marker
if present; drop a trailing 3-character marker if present; strip again. -/
def stripCodeFences (s : String) : String :=
  let s1 := if pyStartsWith s "```json" then pyDropChars s 7 else s
  let s2 := if pyStartsWith s1 "```" then pyDropChars s1 3 else s1
  let s3 := if pyEndsWith s2 "```" then pyDropRightChars s2 3 else s2
  pyStrip s3

/-- The body of the try block of get_analysis (main.py lines 175-198):
a raising API call propagates its exception; an absent or
whitespace-only response text raises HTTPException(500, "Empty response
from Gemini API"); otherwise the stripped text has its fences removed and
is passed to json.loads, whose failure raises JSONDecodeError. -/
def getAnalysisBody (parse : String → Except String PyVal)
    (resp : ApiResponse) : Except PyExc PyVal :=
  match resp with
  | .raised msg => .error (.generic msg)
  | .ok none => .error (.httpExc 500 "Empty response from Gemini API")
  | .ok (some t) =>
    if pyStrip t = "" then
      .error (.httpExc 500 "Empty response from Gemini API")
    else
      match parse (stripCodeFences (pyStrip t)) with
      | .error e => .error (.jsonDecodeError e)
      | .ok v => .ok v

/-- get_analysis (main.py lines 136-205): run the try body; a
JSONDecodeError is re-raised as HTTPException(500, "Invalid JSON response
from Gemini: msg"); any other exception - including the
empty-response HTTPException raised inside the same try block - is caught
by the generic handler and re-raised as HTTPException(500,
"Error analyzing resume: str(e)"). -/
def get_analysis (parse : String → Except String PyVal)
    (resp : ApiResponse) : Except PyExc PyVal :=
  match getAnalysisBody parse resp with
  | .ok v => .ok v
  | .error (.jsonDecodeError e) =>
    .error (.httpExc 500 ("Invalid JSON response from Gemini: " ++ e))
  | .error e =>
    .error (.httpExc 500 ("Error analyzing resume: " ++ pyStr e))

/-- Python subscripting analysis[key] on a json.loads result
(main.py lines 267-268 and 276-277): a dict yields the value under the
key or raises KeyError; any non-dict value raises TypeError. -/
def dictGet (v : PyVal) (key : String) : Except PyExc PyVal :=
  match v with
  | .dict entries =>
    match pyLookup key entries with
    | some x => .ok x
    | none => .error (.generic ("KeyError: " ++ key))
  | _ => .error (.generic ("TypeError: value under key " ++ key ++ " is not subscriptable"))

/-- The per-file body of the loop of analyze_resumes (main.py lines
256-278): extract the text, score it, look up analysis subscripts score
and justification, build the row, add and commit it.  A commit failure
raises; the rollback of the surrounding except block then discards the
pending uncommitted add, so the committed rows are unchanged. -/
def fileStep (env : Env) (jd : String) (f : PyFile) : Except PyExc Row :=
  match parse_resume_file f with
  | .error e => .error e
  | .ok text =>
    match get_analysis env.jsonParse (env.api text jd) with
    | .error e => .error e
    | .ok analysis =>
      match dictGet analysis "score" with
      | .error e => .error e
      | .ok score =>
        match dictGet analysis "justification" with
        | .error e => .error e
        | .ok just =>
          match env.commit ⟨f.filename, jd, score, just⟩ with
          | some e => .error (.generic e)
          | none => .ok ⟨f.filename, jd, score, just⟩

/-- The sequential loop of analyze_resumes (main.py lines 256-280):
process the files in submission order, threading the list of committed
rows and the accumulated results; the first failure stops the loop with
the raised exception and the rows committed so far. -/
def processFiles (env : Env) (jd : String) :
    List PyFile → List Row → List ResultEntry →
    Except PyExc (List ResultEntry) × List Row
  | [], db, acc => (.ok acc, db)
  | f :: rest, db, acc =>
    match fileStep env jd f with
    | .error e => (.error e, db)
    | .ok row =>
      processFiles env jd rest (db ++ [row])
        (acc ++ [⟨row.filename, row.score, row.justification⟩])

/-- The try/except/finally of analyze_resumes around the loop
(main.py lines 254-293): a successful loop returns the results list; any
exception is caught, the open transaction rolled back, and
HTTPException(500, "Error processing files: str(e)") raised. -/
def runBatch (env : Env) (jd : String) (files : List PyFile)
    (db0 : List Row) : Except (Nat × String) (List ResultEntry) × List Row :=
  match processFiles env jd files db0 [] with
  | (.ok rs, db) => (.ok rs, db)
  | (.error e, db) => (.error (500, "Error processing files: " ++ pyStr e), db)

/-- The validation predicate of analyze_resumes (main.py line 247):
the file name, lower-cased, ends with one of .pdf, .docx, .txt. -/
def allowedName (name : String) : Bool :=
  [".pdf", ".docx", ".txt"].any (fun ext => pyEndsWith (pyLower name) ext)

/-- analyze_resumes (main.py lines 207-293): reject an empty batch with
400 "No files uploaded"; reject more than 10 files with 400 "Maximum 10
files allowed"; reject the first file whose lower-cased name has no
allowed extension with 400 "Unsupported file type: name"; otherwise run
the per-file loop.  The pair returned is (HTTP response, committed rows
after the request), starting from the committed rows db0. -/
def analyze_resumes (env : Env) (jd : String) (files : List PyFile)
    (db0 : List Row) : Except (Nat × String) (List ResultEntry) × List Row :=
  if files.isEmpty then
    (.error (400, "No files uploaded"), db0)
  else if files.length > 10 then
    (.error (400, "Maximum 10 files allowed"), db0)
  else
    match files.find? (fun f => ! allowedName f.filename) with
    | some f => (.error (400, "Unsupported file type: " ++ f.filename), db0)
    | none => runBatch env jd files db0

/-- The rows a list of files contributes when processed in order, each
file mapped to its committed row when its step succeeds. -/
def rowsOf (env : Env) (jd : String) (files : List PyFile) : List Row :=
  files.filterMap (fun f => (fileStep env jd f).toOption)

/-- The result entry built from a committed row (main.py lines 274-278). -/
def toEntry (r : Row) : ResultEntry :=
  ⟨r.filename, r.score, r.justification⟩

/-- The validation-failure condition of a batch, as the spec states it:
no files, more than 10 files, or some file name without an allowed
extension (case-insensitively). -/
def badBatch (files : List PyFile) : Prop :=
  files.isEmpty = true ∨ 10 < files.length ∨
    ∃ f ∈ files, allowedName f.filename = false

instance (files : List PyFile) : Decidable (badBatch files) := by
  unfold badBatch
  infer_instance

/-- Modelled from the spec (claim C3's sentence): the response
post-processing exactly as the specification words it, with an else-if
between the 7-character and the 3-character opening-fence checks.
Failure of the empty check and of the JSON parse are reported as the
parse's error string. -/
def specPostProcess (parse : String → Except String PyVal)
    (s : String) : Except String PyVal :=
  let t := pyStrip s
  if t = "" then .error "EmptyResponse"
  else
    let t1 :=
      if pyStartsWith t "```json" then pyDropChars t 7
      else if pyStartsWith t "```" then pyDropChars t 3
      else t
    let t2 := if pyEndsWith t1 "```" then pyDropRightChars t1 3 else t1
    parse (pyStrip t2)

/-- Modelled from the amended claim C3: the same post-processing with the
two opening-fence checks made independent, so a response beginning with
the 7-character marker also has an immediately following 3-character
marker stripped. -/
def amendedClean (s : String) : String :=
  let t := pyStrip s
  let t1 := if pyStartsWith t "```json" then pyDropChars t 7 else t
  let t2 := if pyStartsWith t1 "```" then pyDropChars t1 3 else t1
  let t3 := if pyEndsWith t2 "```" then pyDropRightChars t2 3 else t2
  pyStrip t3

/-- A JSON-parser oracle that returns its input verbatim as a JSON
string, exposing exactly which text reached the parser. -/
def echoParse : String → Except String PyVal :=
  fun u => .ok (.str u)

/-- A parser oracle that always yields a well-formed analysis object
with integer score 7. -/
def okParse : String → Except String PyVal :=
  fun _ => .ok (.dict [("score", .int 7), ("justification", .str "fits well")])

/-- A benign environment: every scoring call answers the fixed text
"resp", the parser yields the fixed analysis object, every commit
succeeds. -/
def wEnv : Env :=
  ⟨okParse, fun _ _ => .ok (some "resp"), fun _ => none⟩

/-- A well-behaved plain-text upload. -/
def txtFile : PyFile :=
  ⟨"a.txt", .error "not a pdf", .error "not a docx", .ok "resume text"⟩

/-- A plain-text upload whose bytes fail to decode as UTF-8, making
extraction fail. -/
def badFile : PyFile :=
  ⟨"b.txt", .error "bad bytes", .error "bad bytes", .error "utf-8 decode failed"⟩

/-- A PDF upload whose declared name has an upper-case extension: it
passes the handler's case-insensitive validation but fails the
extractor's case-sensitive dispatch. -/
def upperFile : PyFile :=
  ⟨"a.PDF", .ok ["page one"], .error "not a docx", .error "binary"⟩

/-- An upload with an extension the handler's validation rejects. -/
def exeFile : PyFile :=
  ⟨"a.exe", .error "binary", .error "binary", .error "binary"⟩

theorem processFiles_nil (env : Env) (jd : String) (db : List Row)
    (acc : List ResultEntry) : processFiles env jd [] db acc = (.ok acc, db) :=
  rfl

theorem processFiles_cons_ok (env : Env) (jd : String) (f : PyFile)
    (rest : List PyFile) (db : List Row) (acc : List ResultEntry) (r : Row)
    (h : fileStep env jd f = .ok r) :
    processFiles env jd (f :: rest) db acc =
      processFiles env jd rest (db ++ [r]) (acc ++ [toEntry r]) := by
  simp [processFiles, h, toEntry]

theorem processFiles_cons_err (env : Env) (jd : String) (f : PyFile)
    (rest : List PyFile) (db : List Row) (acc : List ResultEntry) (e : PyExc)
    (h : fileStep env jd f = .error e) :
    processFiles env jd (f :: rest) db acc = (.error e, db) := by
  simp [processFiles, h]

theorem rowsOf_cons_ok (env : Env) (jd : String) (f : PyFile)
    (rest : List PyFile) (r : Row) (h : fileStep env jd f = .ok r) :
    rowsOf env jd (f :: rest) = r :: rowsOf env jd rest := by
  simp [rowsOf, List.filterMap_cons, h, Except.toOption]

theorem isOk_exists_ok {e : Except PyExc Row} (h : e.isOk = true) :
    ∃ r, e = .ok r := by
  cases e with
  | ok r => exact ⟨r, rfl⟩
  | error ex => simp [Except.isOk, Except.toBool] at h

theorem processFiles_skip (env : Env) (jd : String) (pre rest : List PyFile)
    (db : List Row) (acc : List ResultEntry)
    (h : ∀ f ∈ pre, (fileStep env jd f).isOk = true) :
    processFiles env jd (pre ++ rest) db acc =
      processFiles env jd rest (db ++ rowsOf env jd pre)
        (acc ++ (rowsOf env jd pre).map toEntry) := by
  induction pre generalizing db acc with
  | nil => simp [rowsOf]
  | cons f pre ih =>
    obtain ⟨r, hr⟩ := isOk_exists_ok (h f (List.mem_cons_self f pre))
    rw [List.cons_append, processFiles_cons_ok env jd f (pre ++ rest) db acc r hr,
      ih (db ++ [r]) (acc ++ [toEntry r]) (fun g hg => h g (List.mem_cons_of_mem f hg)),
      rowsOf_cons_ok env jd f pre r hr]
    simp

theorem processFiles_run_ok (env : Env) (jd : String) (files : List PyFile)
    (db : List Row) (acc : List ResultEntry)
    (h : ∀ f ∈ files, (fileStep env jd f).isOk = true) :
    processFiles env jd files db acc =
      (.ok (acc ++ (rowsOf env jd files).map toEntry), db ++ rowsOf env jd files) := by
  have hs := processFiles_skip env jd files [] db acc h
  simpa [processFiles] using hs

theorem processFiles_abort (env : Env) (jd : String) (pre : List PyFile)
    (fk : PyFile) (post : List PyFile) (db : List Row) (acc : List ResultEntry)
    (ex : PyExc) (hpre : ∀ f ∈ pre, (fileStep env jd f).isOk = true)
    (hfk : fileStep env jd fk = .error ex) :
    processFiles env jd (pre ++ fk :: post) db acc =
      (.error ex, db ++ rowsOf env jd pre) := by
  rw [processFiles_skip env jd pre (fk :: post) db acc hpre,
    processFiles_cons_err env jd fk post _ _ ex hfk]

theorem analyze_resumes_valid (env : Env) (jd : String) (files : List PyFile)
    (db0 : List Row) (hne : files.isEmpty = false) (hlen : files.length ≤ 10)
    (hext : ∀ f ∈ files, allowedName f.filename = true) :
    analyze_resumes env jd files db0 = runBatch env jd files db0 := by
  have hfind : files.find? (fun f => ! allowedName f.filename) = none := by
    rw [List.find?_eq_none]
    intro f hf
    simp [hext f hf]
  have hlen10 : ¬ (files.length > 10) := by omega
  simp [analyze_resumes, hne, hlen10, hfind]

theorem analyze_resumes_abort (env : Env) (jd : String) (pre : List PyFile)
    (fk : PyFile) (post : List PyFile) (db0 : List Row) (ex : PyExc)
    (hlen : (pre ++ fk :: post).length ≤ 10)
    (hext : ∀ f ∈ pre ++ fk :: post, allowedName f.filename = true)
    (hpre : ∀ f ∈ pre, (fileStep env jd f).isOk = true)
    (hfk : fileStep env jd fk = .error ex) :
    analyze_resumes env jd (pre ++ fk :: post) db0 =
      (.error (500, "Error processing files: " ++ pyStr ex), db0 ++ rowsOf env jd pre) := by
  have hne : (pre ++ fk :: post).isEmpty = false := by
    cases pre <;> simp [List.isEmpty]
  rw [analyze_resumes_valid env jd _ db0 hne hlen hext]
  unfold runBatch
  rw [processFiles_abort env jd pre fk post db0 [] ex hpre hfk]

theorem analyze_resumes_badBatch (env : Env) (jd : String) (files : List PyFile)
    (db0 : List Row) (h : badBatch files) :
    (∃ d, (analyze_resumes env jd files db0).1 = .error (400, d)) ∧
      (analyze_resumes env jd files db0).2 = db0 := by
  by_cases h1 : files.isEmpty = true
  · exact ⟨⟨"No files uploaded", by simp [analyze_resumes, h1]⟩, by simp [analyze_resumes, h1]⟩
  · by_cases h2 : files.length > 10
    · exact ⟨⟨"Maximum 10 files allowed", by simp [analyze_resumes, h1, h2]⟩,
        by simp [analyze_resumes, h1, h2]⟩
    · obtain ⟨f, hfmem, hfbad⟩ : ∃ f ∈ files, allowedName f.filename = false := by
        rcases h with h | h | h
        · exact absurd h h1
        · exact absurd h h2
        · exact h
      cases hf : files.find? (fun f => ! allowedName f.filename) with
      | none =>
        rw [List.find?_eq_none] at hf
        exact absurd (by simp [hfbad] : (fun f => ! allowedName f.filename) f = true)
          (by simpa using hf f hfmem)
      | some g =>
        exact ⟨⟨"Unsupported file type: " ++ g.filename,
          by simp [analyze_resumes, h1, h2, hf]⟩, by simp [analyze_resumes, h1, h2, hf]⟩

theorem fileStep_ok_shape (env : Env) (jd : String) (f : PyFile) (r : Row)
    (h : fileStep env jd f = .ok r) :
    r.filename = f.filename ∧ r.job_description = jd ∧ env.commit r = none ∧
    ∃ txt v, parse_resume_file f = .ok txt ∧
      get_analysis env.jsonParse (env.api txt jd) = .ok v ∧
      dictGet v "score" = .ok r.score ∧
      dictGet v "justification" = .ok r.justification := by
  unfold fileStep at h
  split at h
  next e heq => simp at h
  next txt heq =>
    split at h
    next e heq2 => simp at h
    next v heq2 =>
      split at h
      next e heq3 => simp at h
      next sc heq3 =>
        split at h
        next e heq4 => simp at h
        next j heq4 =>
          split at h
          next e heq5 => simp at h
          next heq5 =>
            injection h with h6
            subst h6
            exact ⟨rfl, rfl, heq5, txt, v, heq, heq2, heq3, heq4⟩

theorem fileStep_build_ok (env : Env) (jd : String) (f : PyFile) (txt : String)
    (v sc j : PyVal) (hparse : parse_resume_file f = .ok txt)
    (hga : get_analysis env.jsonParse (env.api txt jd) = .ok v)
    (hsc : dictGet v "score" = .ok sc)
    (hj : dictGet v "justification" = .ok j)
    (hcommit : env.commit ⟨f.filename, jd, sc, j⟩ = none) :
    fileStep env jd f = .ok ⟨f.filename, jd, sc, j⟩ := by
  simp [fileStep, hparse, hga, hsc, hj, hcommit]

theorem fileStep_build_err_parse (env : Env) (jd : String) (f : PyFile)
    (e : PyExc) (hparse : parse_resume_file f = .error e) :
    fileStep env jd f = .error e := by
  simp [fileStep, hparse]

theorem fileStep_build_err_analysis (env : Env) (jd : String) (f : PyFile)
    (txt : String) (e : PyExc) (hparse : parse_resume_file f = .ok txt)
    (hga : get_analysis env.jsonParse (env.api txt jd) = .error e) :
    fileStep env jd f = .error e := by
  simp [fileStep, hparse, hga]

theorem fileStep_build_err_score (env : Env) (jd : String) (f : PyFile)
    (txt : String) (v : PyVal) (e : PyExc)
    (hparse : parse_resume_file f = .ok txt)
    (hga : get_analysis env.jsonParse (env.api txt jd) = .ok v)
    (hsc : dictGet v "score" = .error e) :
    fileStep env jd f = .error e := by
  simp [fileStep, hparse, hga, hsc]

theorem fileStep_build_err_just (env : Env) (jd : String) (f : PyFile)
    (txt : String) (v sc : PyVal) (e : PyExc)
    (hparse : parse_resume_file f = .ok txt)
    (hga : get_analysis env.jsonParse (env.api txt jd) = .ok v)
    (hsc : dictGet v "score" = .ok sc)
    (hj : dictGet v "justification" = .error e) :
    fileStep env jd f = .error e := by
  simp [fileStep, hparse, hga, hsc, hj]

theorem processFiles_new_rows (env : Env) (jd : String) (files : List PyFile) :
    ∀ (db : List Row) (acc : List ResultEntry),
      ∃ new, (processFiles env jd files db acc).2 = db ++ new ∧
        ∀ r ∈ new, ∃ f ∈ files, fileStep env jd f = .ok r := by
  induction files with
  | nil => exact fun db acc => ⟨[], by simp [processFiles], by simp⟩
  | cons f rest ih =>
    intro db acc
    cases hf : fileStep env jd f with
    | error e =>
      refine ⟨[], by simp [processFiles, hf], by simp⟩
    | ok r =>
      obtain ⟨new, hdb, hmem⟩ := ih (db ++ [r]) (acc ++ [toEntry r])
      refine ⟨r :: new, ?_, ?_⟩
      · rw [processFiles_cons_ok env jd f rest db acc r hf, hdb]
        simp
      · intro x hx
        rcases List.mem_cons.mp hx with hx | hx
        · exact ⟨f, List.mem_cons_self f rest, hx ▸ hf⟩
        · obtain ⟨g, hg, hgs⟩ := hmem x hx
          exact ⟨g, List.mem_cons_of_mem f hg, hgs⟩

theorem runBatch_snd (env : Env) (jd : String) (files : List PyFile)
    (db0 : List Row) :
    (runBatch env jd files db0).2 = (processFiles env jd files db0 []).2 := by
  unfold runBatch
  rcases hp : processFiles env jd files db0 [] with ⟨res, db⟩
  cases res <;> simp

theorem not_badBatch (files : List PyFile) (h : ¬ badBatch files) :
    files.isEmpty = false ∧ files.length ≤ 10 ∧
      ∀ f ∈ files, allowedName f.filename = true := by
  unfold badBatch at h
  push_neg at h
  obtain ⟨h1, h2, h3⟩ := h
  refine ⟨by simpa using h1, by omega, fun f hf => ?_⟩
  have h4 := h3 f hf
  simpa using h4

theorem rowsOf_forall₂ (env : Env) (jd : String) :
    ∀ files : List PyFile, (∀ f ∈ files, (fileStep env jd f).isOk = true) →
      List.Forall₂ (fun f r => fileStep env jd f = .ok r) files (rowsOf env jd files)
  | [], _ => List.Forall₂.nil
  | f :: rest, hok => by
    obtain ⟨r, hr⟩ := isOk_exists_ok (hok f (List.mem_cons_self f rest))
    rw [rowsOf_cons_ok env jd f rest r hr]
    exact List.Forall₂.cons hr
      (rowsOf_forall₂ env jd rest (fun g hg => hok g (List.mem_cons_of_mem f hg)))

theorem get_analysis_parse_ok (parse : String → Except String PyVal) (s : String)
    (v : PyVal) (hne : ¬ pyStrip s = "")
    (hp : parse (stripCodeFences (pyStrip s)) = .ok v) :
    get_analysis parse (.ok (some s)) = .ok v := by
  simp [get_analysis, getAnalysisBody, hne, hp]

theorem get_analysis_parse_err (parse : String → Except String PyVal) (s : String)
    (e : String) (hne : ¬ pyStrip s = "")
    (hp : parse (stripCodeFences (pyStrip s)) = .error e) :
    get_analysis parse (.ok (some s)) =
      .error (.httpExc 500 ("Invalid JSON response from Gemini: " ++ e)) := by
  simp [get_analysis, getAnalysisBody, hne, hp]

/-- A second well-behaved plain-text upload. -/
def txtFile2 : PyFile :=
  ⟨"c.txt", .error "not a pdf", .error "not a docx", .ok "second resume"⟩

/-- An environment whose JSON parser always fails, as json.loads does on a
non-JSON model response. -/
def badJsonEnv : Env :=
  ⟨fun _ => .error "Expecting value", fun _ _ => .ok (some "not json"), fun _ => none⟩

/-- An environment whose model response parses to an object carrying a
non-numeric score and a null justification. -/
def weirdEnv : Env :=
  ⟨fun _ => .ok (.dict [("score", .str "banana"), ("justification", .null)]),
    fun _ _ => .ok (some "resp"), fun _ => none⟩

/-- An environment whose model response parses to an object without the
score and justification keys. -/
def noKeysEnv : Env :=
  ⟨fun _ => .ok (.dict [("points", .int 3)]), fun _ _ => .ok (some "resp"), fun _ => none⟩

/-- C1: for every batch that passes validation, a failure while processing
file k yields a 500 error response (no results list), leaves exactly the
rows committed for files 1..k-1 in the store, and the outcome is the same
whatever files follow k - they are never extracted, scored or stored. -/
theorem claim1_abort_on_failure (env : Env) (jd : String) (pre : List PyFile)
    (fk : PyFile) (post : List PyFile) (db0 : List Row) (ex : PyExc)
    (hlen : (pre ++ fk :: post).length ≤ 10)
    (hext : ∀ g ∈ pre ++ fk :: post, allowedName g.filename = true)
    (hpre : ∀ g ∈ pre, (fileStep env jd g).isOk = true)
    (hfk : fileStep env jd fk = .error ex) :
    analyze_resumes env jd (pre ++ fk :: post) db0 =
      (.error (500, "Error processing files: " ++ pyStr ex),
        db0 ++ rowsOf env jd pre) ∧
    analyze_resumes env jd (pre ++ fk :: post) db0 =
      analyze_resumes env jd (pre ++ [fk]) db0 := by
  have h1 := analyze_resumes_abort env jd pre fk post db0 ex hlen hext hpre hfk
  have hlen2 : (pre ++ [fk]).length ≤ 10 := by
    simp only [List.length_append, List.length_cons] at hlen ⊢
    simp at hlen ⊢
    omega
  have hext2 : ∀ g ∈ pre ++ [fk], allowedName g.filename = true := by
    intro g hg
    apply hext
    rcases List.mem_append.mp hg with h | h
    · exact List.mem_append.mpr (Or.inl h)
    · simp only [List.mem_singleton] at h
      subst h
      exact List.mem_append.mpr (Or.inr (List.mem_cons_self g post))
  have h2 := analyze_resumes_abort env jd pre fk [] db0 ex hlen2 hext2 hpre hfk
  exact ⟨h1, h1.trans h2.symm⟩

/-- Witness for C1: three valid text files whose second fails to decode;
the handler answers 500 and the store holds exactly the first file's row. -/
theorem claim1_witness :
    analyze_resumes wEnv "jd" ([txtFile] ++ badFile :: [txtFile2]) [] =
      (.error (500, "Error processing files: utf-8 decode failed"),
        [⟨"a.txt", "jd", .int 7, .str "fits well"⟩]) := by
  have h := (claim1_abort_on_failure wEnv "jd" [txtFile] badFile [txtFile2] []
    (.generic "utf-8 decode failed") (by decide) (by decide) (by decide) rfl).1
  exact h

/-- C2 counterexample: the file a.PDF passes the handler's case-insensitive
validation, so the batch reaches processing; the first file is extracted,
scored and committed, and only then does the extractor's case-sensitive
dispatch reject a.PDF - surfaced by the handler's generic except clause as
a 500 server error, not as a 400 before any processing. -/
theorem claim2_counterexample :
    analyze_resumes wEnv "jd" [txtFile, upperFile] [] =
      (.error (500, "Error processing files: 400: Unsupported file type: a.PDF"),
        [⟨"a.txt", "jd", .int 7, .str "fits well"⟩]) := rfl

/-- C2 as amended: an UnsupportedFileType detected by the handler's
case-insensitive validation is rejected with a 400 before any file is
processed; but a file whose name passes that check while failing the
extractor's case-sensitive dispatch is processed in order, and the
unsupported-type error it raises there is surfaced as a 500 server error
with the rows of the earlier files already committed. -/
theorem claim2_unsupported_type_paths :
    (∀ (env : Env) (jd : String) (files : List PyFile) (db0 : List Row)
      (f : PyFile), f ∈ files → allowedName f.filename = false →
      (∃ d, (analyze_resumes env jd files db0).1 = .error (400, d)) ∧
        (analyze_resumes env jd files db0).2 = db0) ∧
    (∀ (env : Env) (jd : String) (pre : List PyFile) (f : PyFile)
      (post : List PyFile) (db0 : List Row),
      (pre ++ f :: post).length ≤ 10 →
      (∀ g ∈ pre ++ f :: post, allowedName g.filename = true) →
      (∀ g ∈ pre, (fileStep env jd g).isOk = true) →
      pyEndsWith f.filename ".pdf" = false →
      pyEndsWith f.filename ".docx" = false →
      pyEndsWith f.filename ".txt" = false →
      analyze_resumes env jd (pre ++ f :: post) db0 =
        (.error (500, "Error processing files: " ++
          pyStr (.httpExc 400 ("Unsupported file type: " ++ f.filename))),
          db0 ++ rowsOf env jd pre)) := by
  constructor
  · intro env jd files db0 f hmem hbad
    exact analyze_resumes_badBatch env jd files db0 (Or.inr (Or.inr ⟨f, hmem, hbad⟩))
  · intro env jd pre f post db0 hlen hext hpre h1 h2 h3
    have hparse : parse_resume_file f =
        .error (.httpExc 400 ("Unsupported file type: " ++ f.filename)) := by
      simp [parse_resume_file, h1, h2, h3]
    exact analyze_resumes_abort env jd pre f post db0 _ hlen hext hpre
      (fileStep_build_err_parse env jd f _ hparse)

/-- Witness for C2 as amended: an .exe upload is rejected up front leaving
the store unchanged, while a lone a.PDF upload reaches the extractor and
is surfaced as a 500. -/
theorem claim2_witness :
    (analyze_resumes wEnv "jd" [exeFile] []).2 = [] ∧
    analyze_resumes wEnv "jd" ([] ++ upperFile :: []) [] =
      (.error (500, "Error processing files: " ++
        pyStr (.httpExc 400 ("Unsupported file type: " ++ upperFile.filename))),
        [] ++ rowsOf wEnv "jd" []) := by
  refine ⟨(claim2_unsupported_type_paths.1 wEnv "jd" [exeFile] [] exeFile
    (List.mem_cons_self exeFile []) (by decide)).2, ?_⟩
  exact claim2_unsupported_type_paths.2 wEnv "jd" [] upperFile [] []
    (by decide) (by decide) (by decide) (by decide) (by decide) (by decide)

/-- C3 counterexample: on a response that starts with the 7-character fence
marker and whose remainder starts with the 3-character marker, the code's
two independent conditionals strip both markers and hand the parser the
text 5, while the claim's else-if algorithm strips only the first and
hands the parser the 3 fence characters followed by 5. -/
theorem claim3_counterexample :
    get_analysis echoParse (.ok (some "```json```5```")) = .ok (.str "5") ∧
    specPostProcess echoParse "```json```5```" = .ok (.str "```5") ∧
    ("5" : String) ≠ "```5" :=
  ⟨rfl, rfl, by decide⟩

/-- C3 as amended: the scoring client's post-processing trims the response,
fails when the trimmed response is empty, and otherwise strips a leading
7-character fence marker if present, then - independently, not as an
else-branch - a leading 3-character marker if present, then a trailing
3-character marker if present, trims again and parses the remainder as
JSON, surfacing a parse failure as the invalid-JSON error. -/
theorem claim3_postprocessing (parse : String → Except String PyVal)
    (s : String) :
    (pyStrip s = "" → ∃ e, get_analysis parse (.ok (some s)) = .error e) ∧
    (¬ pyStrip s = "" →
      get_analysis parse (.ok (some s)) =
        match parse (amendedClean s) with
        | .ok v => .ok v
        | .error e =>
          .error (.httpExc 500 ("Invalid JSON response from Gemini: " ++ e))) := by
  constructor
  · intro h
    exact ⟨.httpExc 500 ("Error analyzing resume: " ++
      pyStr (.httpExc 500 "Empty response from Gemini API")),
      by simp [get_analysis, getAnalysisBody, h]⟩
  · intro h
    have hclean : amendedClean s = stripCodeFences (pyStrip s) := rfl
    rw [hclean]
    cases hp : parse (stripCodeFences (pyStrip s)) with
    | ok v => exact get_analysis_parse_ok parse s v h hp
    | error e => exact get_analysis_parse_err parse s e h hp

/-- Witness for C3 as amended: a plain response is handed unchanged to the
parser. -/
theorem claim3_witness :
    get_analysis echoParse (.ok (some " x ")) = .ok (.str "x") := by
  have h := (claim3_postprocessing echoParse " x ").2 (by decide)
  exact h

/-- C4: the handler answers a 400 client error, with the store untouched,
exactly when the batch is empty, has more than 10 files, or contains a
file whose name lacks a case-insensitively allowed extension; otherwise
the request proceeds to the per-file processing loop. -/
theorem claim4_validation (env : Env) (jd : String) (files : List PyFile)
    (db0 : List Row) :
    ((∃ d, (analyze_resumes env jd files db0).1 = .error (400, d)) ↔
      badBatch files) ∧
    (badBatch files → (analyze_resumes env jd files db0).2 = db0) ∧
    (¬ badBatch files →
      analyze_resumes env jd files db0 = runBatch env jd files db0) := by
  refine ⟨⟨?_, fun h => (analyze_resumes_badBatch env jd files db0 h).1⟩,
    fun h => (analyze_resumes_badBatch env jd files db0 h).2,
    fun h => ?_⟩
  · rintro ⟨d, hd⟩
    by_cases h1 : files.isEmpty = true
    · exact Or.inl h1
    · by_cases h2 : files.length > 10
      · exact Or.inr (Or.inl h2)
      · cases hf : files.find? (fun f => ! allowedName f.filename) with
        | some g =>
          refine Or.inr (Or.inr ⟨g, List.mem_of_find?_eq_some hf, ?_⟩)
          have h3 := List.find?_some hf
          simpa using h3
        | none =>
          exfalso
          rw [analyze_resumes_valid env jd files db0 (by simpa using h1)
            (by omega) ?hex] at hd
          case hex =>
            intro f hfmem
            have h4 := List.find?_eq_none.mp hf f hfmem
            simpa using h4
          unfold runBatch at hd
          rcases hp : processFiles env jd files db0 [] with ⟨res, db⟩
          rw [hp] at hd
          cases res with
          | ok rs => simp at hd
          | error e => simp at hd
  · obtain ⟨h1, h2, h3⟩ := not_badBatch files h
    exact analyze_resumes_valid env jd files db0 h1 h2 h3

/-- Witness for C4: an empty batch leaves the store unchanged, and a
singleton valid batch proceeds to the processing loop. -/
theorem claim4_witness :
    (analyze_resumes wEnv "jd" [] []).2 = ([] : List Row) ∧
    analyze_resumes wEnv "jd" [txtFile] [] = runBatch wEnv "jd" [txtFile] [] :=
  ⟨(claim4_validation wEnv "jd" [] []).2.1 (Or.inl rfl),
    (claim4_validation wEnv "jd" [txtFile] []).2.2 (by decide)⟩

/-- C5: when every file of a valid batch extracts, scores and commits
successfully, the handler answers 200 with one result entry per file in
submission order, each built from its row, and the store gains exactly
those rows, each carrying the file's name, the job description, and the
score and justification the scoring client returned. -/
theorem claim5_all_success (env : Env) (jd : String) (files : List PyFile)
    (db0 : List Row) (hne : files.isEmpty = false) (hlen : files.length ≤ 10)
    (hext : ∀ f ∈ files, allowedName f.filename = true)
    (hok : ∀ f ∈ files, (fileStep env jd f).isOk = true) :
    analyze_resumes env jd files db0 =
      (.ok ((rowsOf env jd files).map toEntry), db0 ++ rowsOf env jd files) ∧
    (rowsOf env jd files).length = files.length ∧
    List.Forall₂ (fun f r => fileStep env jd f = .ok r ∧
      r.filename = f.filename ∧ r.job_description = jd ∧
      ∃ txt v, parse_resume_file f = .ok txt ∧
        get_analysis env.jsonParse (env.api txt jd) = .ok v ∧
        dictGet v "score" = .ok r.score ∧
        dictGet v "justification" = .ok r.justification)
      files (rowsOf env jd files) := by
  have hfa := rowsOf_forall₂ env jd files hok
  refine ⟨?_, hfa.length_eq.symm, hfa.imp (fun {f r} hstep => ?_)⟩
  · rw [analyze_resumes_valid env jd files db0 hne hlen hext]
    unfold runBatch
    rw [processFiles_run_ok env jd files db0 [] hok]
    simp
  · obtain ⟨ha, hb, _, txt, v, hd, he, hf2, hg⟩ :=
      fileStep_ok_shape env jd f r hstep
    exact ⟨hstep, ha, hb, txt, v, hd, he, hf2, hg⟩

/-- Witness for C5: two valid text files both succeed; the response lists
both entries in order and the store gains the two matching rows. -/
theorem claim5_witness :
    analyze_resumes wEnv "jd" [txtFile, txtFile2] [] =
      (.ok [⟨"a.txt", .int 7, .str "fits well"⟩,
            ⟨"c.txt", .int 7, .str "fits well"⟩],
        [⟨"a.txt", "jd", .int 7, .str "fits well"⟩,
         ⟨"c.txt", "jd", .int 7, .str "fits well"⟩]) ∧
    (rowsOf wEnv "jd" [txtFile, txtFile2]).length = 2 := by
  have h := claim5_all_success wEnv "jd" [txtFile, txtFile2] []
    (by decide) (by decide) (by decide) (by decide)
  exact ⟨h.1, h.2.1⟩

/-- C6: after any request the store is the old store plus appended rows
(nothing is updated or deleted), and every appended row stems from a file
of the batch whose extraction, scoring, both key lookups and commit all
succeeded, with the row carrying that file's name, the request's job
description, and the looked-up score and justification. -/
theorem claim6_store_invariant (env : Env) (jd : String) (files : List PyFile)
    (db0 : List Row) :
    ∃ new, (analyze_resumes env jd files db0).2 = db0 ++ new ∧
      ∀ r ∈ new, ∃ f ∈ files, fileStep env jd f = .ok r ∧
        r.filename = f.filename ∧ r.job_description = jd ∧
        env.commit r = none ∧
        ∃ txt v, parse_resume_file f = .ok txt ∧
          get_analysis env.jsonParse (env.api txt jd) = .ok v ∧
          dictGet v "score" = .ok r.score ∧
          dictGet v "justification" = .ok r.justification := by
  by_cases hb : badBatch files
  · exact ⟨[], by simpa using (analyze_resumes_badBatch env jd files db0 hb).2,
      by simp⟩
  · obtain ⟨h1, h2, h3⟩ := not_badBatch files hb
    rw [analyze_resumes_valid env jd files db0 h1 h2 h3, runBatch_snd]
    obtain ⟨new, hdb, hmem⟩ := processFiles_new_rows env jd files db0 []
    refine ⟨new, hdb, fun r hr => ?_⟩
    obtain ⟨f, hf, hstep⟩ := hmem r hr
    obtain ⟨ha, hb2, hc, txt, v, hd, he, hf2, hg⟩ :=
      fileStep_ok_shape env jd f r hstep
    exact ⟨f, hf, hstep, ha, hb2, hc, txt, v, hd, he, hf2, hg⟩

/-- C7 counterexample: on a whitespace-only response the scoring client
raises its empty-response exception inside its own try block, and the
generic except clause of the same try re-raises it wrapped in the same
"Error analyzing resume" form used for API failures - the surfaced error
is not the distinct empty-response error the claim states. -/
theorem claim7_counterexample :
    get_analysis echoParse (.ok (some "   ")) =
      .error (.httpExc 500
        "Error analyzing resume: 500: Empty response from Gemini API") ∧
    get_analysis echoParse (.ok (some "   ")) ≠
      .error (.httpExc 500 "Empty response from Gemini API") := by
  refine ⟨rfl, fun h => ?_⟩
  have h2 : (Except.error (PyExc.httpExc 500
      "Error analyzing resume: 500: Empty response from Gemini API") :
      Except PyExc PyVal) =
      .error (.httpExc 500 "Empty response from Gemini API") := h
  injection h2 with h3
  exact absurd h3 (by decide)

/-- C7 as amended: for every model response that is absent, empty or only
whitespace, the scoring client detects the empty response and raises the
empty-response exception, but its own generic exception handler catches it
and the surfaced failure is the wrapped "Error analyzing resume: 500:
Empty response from Gemini API" error - the same ScoringFailed shape used
for other API failures, not an error distinct from it. -/
theorem claim7_empty_wrapped (parse : String → Except String PyVal)
    (resp : ApiResponse)
    (h : resp = .ok none ∨ ∃ s, resp = .ok (some s) ∧ pyStrip s = "") :
    get_analysis parse resp =
      .error (.httpExc 500
        "Error analyzing resume: 500: Empty response from Gemini API") := by
  rcases h with h | ⟨s, hs, hempty⟩
  · subst h
    rfl
  · subst hs
    simp only [get_analysis, getAnalysisBody, hempty, if_pos]
    rfl

/-- Witness for C7 as amended: an absent response text is surfaced as the
wrapped error. -/
theorem claim7_witness :
    get_analysis okParse (.ok none) =
      .error (.httpExc 500
        "Error analyzing resume: 500: Empty response from Gemini API") :=
  claim7_empty_wrapped okParse (.ok none) (Or.inl rfl)

/-- C8: a non-empty response whose post-processed text the JSON parser
rejects makes the scoring client fail with the invalid-JSON error carrying
the parser's detail (not the generic analysis error and not a crash), and
the handler surfaces it as a 500 server error. -/
theorem claim8_invalid_json (env : Env) (jd : String) (f : PyFile)
    (db0 : List Row) (txt s e : String)
    (hext : allowedName f.filename = true)
    (hparse : parse_resume_file f = .ok txt)
    (hapi : env.api txt jd = .ok (some s))
    (hne : ¬ pyStrip s = "")
    (hjson : env.jsonParse (stripCodeFences (pyStrip s)) = .error e) :
    get_analysis env.jsonParse (env.api txt jd) =
      .error (.httpExc 500 ("Invalid JSON response from Gemini: " ++ e)) ∧
    analyze_resumes env jd [f] db0 =
      (.error (500, "Error processing files: " ++
        pyStr (.httpExc 500 ("Invalid JSON response from Gemini: " ++ e))),
        db0) := by
  have hga : get_analysis env.jsonParse (env.api txt jd) =
      .error (.httpExc 500 ("Invalid JSON response from Gemini: " ++ e)) := by
    rw [hapi]
    exact get_analysis_parse_err env.jsonParse s e hne hjson
  refine ⟨hga, ?_⟩
  have habort := analyze_resumes_abort env jd [] f [] db0 _ (by simp)
    (by intro g hg; simp at hg; subst hg; exact hext) (by simp)
    (fileStep_build_err_analysis env jd f txt _ hparse hga)
  simpa [rowsOf] using habort

/-- Witness for C8: a parser failure on the text "not json" is surfaced by
the handler as a 500 carrying the parser's message. -/
theorem claim8_witness :
    analyze_resumes badJsonEnv "jd" [txtFile] [] =
      (.error (500,
        "Error processing files: 500: Invalid JSON response from Gemini: Expecting value"),
        []) := by
  have h := (claim8_invalid_json badJsonEnv "jd" txtFile [] "resume text"
    "not json" "Expecting value" (by decide) rfl rfl (by decide) rfl).2
  exact h

/-- C9: when the parsed response is an object carrying the score and
justification keys, the scoring client returns exactly the parsed value,
and the handler stores and returns whatever lies under those keys - for
any values whatsoever, numeric or not, empty or not, since no validation
is performed on them. -/
theorem claim9_passthrough (env : Env) (jd : String) (f : PyFile)
    (db0 : List Row) (txt s : String) (entries : List (String × PyVal))
    (sc j : PyVal)
    (hext : allowedName f.filename = true)
    (hparse : parse_resume_file f = .ok txt)
    (hapi : env.api txt jd = .ok (some s))
    (hne : ¬ pyStrip s = "")
    (hjson : env.jsonParse (stripCodeFences (pyStrip s)) = .ok (.dict entries))
    (hsc : pyLookup "score" entries = some sc)
    (hj : pyLookup "justification" entries = some j)
    (hcommit : env.commit ⟨f.filename, jd, sc, j⟩ = none) :
    get_analysis env.jsonParse (env.api txt jd) = .ok (.dict entries) ∧
    analyze_resumes env jd [f] db0 =
      (.ok [⟨f.filename, sc, j⟩], db0 ++ [⟨f.filename, jd, sc, j⟩]) := by
  have hga : get_analysis env.jsonParse (env.api txt jd) =
      .ok (.dict entries) := by
    rw [hapi]
    exact get_analysis_parse_ok env.jsonParse s _ hne hjson
  refine ⟨hga, ?_⟩
  have hstep : fileStep env jd f = .ok ⟨f.filename, jd, sc, j⟩ :=
    fileStep_build_ok env jd f txt (.dict entries) sc j hparse hga
      (by simp [dictGet, hsc]) (by simp [dictGet, hj]) hcommit
  rw [analyze_resumes_valid env jd [f] db0 (by simp) (by simp)
    (by intro g hg; simp at hg; subst hg; exact hext)]
  unfold runBatch
  rw [processFiles_run_ok env jd [f] db0 []
    (by intro g hg; simp at hg; subst hg;
        simp [hstep, Except.isOk, Except.toBool])]
  rw [rowsOf_cons_ok env jd f [] _ hstep]
  simp [rowsOf, toEntry]

/-- Witness for C9: a response scoring the string banana with a null
justification is stored and returned verbatim. -/
theorem claim9_witness :
    analyze_resumes weirdEnv "jd" [txtFile] [] =
      (.ok [⟨"a.txt", .str "banana", .null⟩],
        [⟨"a.txt", "jd", .str "banana", .null⟩]) := by
  have h := (claim9_passthrough weirdEnv "jd" txtFile [] "resume text" "resp"
    [("score", .str "banana"), ("justification", .null)] (.str "banana") .null
    (by decide) rfl rfl (by decide) rfl rfl rfl rfl).2
  exact h

/-- C10: when the response parses to valid JSON lacking the score key or
the justification key (or to a non-object value), the key lookup raises,
the whole batch aborts with a 500 server error, and no row is stored for
that file - only the rows of the files before it remain. -/
theorem claim10_missing_keys (env : Env) (jd : String) (pre : List PyFile)
    (f : PyFile) (post : List PyFile) (db0 : List Row) (txt s : String)
    (v : PyVal) (ex : PyExc)
    (hlen : (pre ++ f :: post).length ≤ 10)
    (hext : ∀ g ∈ pre ++ f :: post, allowedName g.filename = true)
    (hpre : ∀ g ∈ pre, (fileStep env jd g).isOk = true)
    (hparse : parse_resume_file f = .ok txt)
    (hapi : env.api txt jd = .ok (some s))
    (hne : ¬ pyStrip s = "")
    (hjson : env.jsonParse (stripCodeFences (pyStrip s)) = .ok v)
    (hlook : dictGet v "score" = .error ex ∨
      ∃ sc, dictGet v "score" = .ok sc ∧
        dictGet v "justification" = .error ex) :
    analyze_resumes env jd (pre ++ f :: post) db0 =
      (.error (500, "Error processing files: " ++ pyStr ex),
        db0 ++ rowsOf env jd pre) := by
  have hga : get_analysis env.jsonParse (env.api txt jd) = .ok v := by
    rw [hapi]
    exact get_analysis_parse_ok env.jsonParse s v hne hjson
  have hstep : fileStep env jd f = .error ex := by
    rcases hlook with h | ⟨sc, hsc, hj⟩
    · exact fileStep_build_err_score env jd f txt v ex hparse hga h
    · exact fileStep_build_err_just env jd f txt v sc ex hparse hga hsc hj
  exact analyze_resumes_abort env jd pre f post db0 ex hlen hext hpre hstep

/-- Witness for C10: a response parsing to an object without a score key
aborts the singleton batch with a 500 and stores nothing. -/
theorem claim10_witness :
    analyze_resumes noKeysEnv "jd" ([] ++ txtFile :: []) [] =
      (.error (500, "Error processing files: KeyError: score"),
        [] ++ rowsOf noKeysEnv "jd" []) :=
  claim10_missing_keys noKeysEnv "jd" [] txtFile [] [] "resume text" "resp"
    (.dict [("points", .int 3)]) (.generic "KeyError: score")
    (by decide) (by decide) (by decide) rfl rfl (by decide) rfl (Or.inl rfl)
